import Mathlib

/-!
Verification of the `hierarchical_transformer` repository (processor.py and
validation.py) against its natural-language specification.

The Python code is shallowly embedded: pandas cells become `Option String`
(`none` models null/NaN), a grid becomes a list of rows of cells, dicts
become association lists preserving insertion order, and the `while` loop of
`_extract_records` becomes a fuel-indexed recursion whose fuel is the loop
variant `total_rows` (the loop index strictly increases at every iteration,
so `total_rows` steps always suffice).  External pandas/stdlib collaborators
(`pd.to_datetime`, `datetime.strptime`, numeric comparison of cells against
float bounds) enter the model as explicit function parameters.
-/

/-- A pandas cell: `none` is null/NaN, `some s` is the cell's string form
(`str(val)` in the source.  The source only ever inspects cells through
`str(...)`, `pd.notnull`/`pd.isna`, so a string-valued model is faithful). -/
abbrev Cell := Option String

/-- A DataFrame's row region: ordered rows of cells, positionally indexed. -/
abbrev Grid := List (List Cell)

/-- A record produced by the scanner: a Python dict from canonical field name
to extracted value, modelled as an association list in insertion order. -/
abbrev Record := List (String × String)

/-- Python whitespace characters stripped by `str.strip()` (ASCII range). -/
def isPyWS (c : Char) : Bool :=
  c = ' ' || c = '\t' || c = '\n' || c = '\r' || c = Char.ofNat 11 || c = Char.ofNat 12

/-- Python `str.strip()` on the character list: drop whitespace from both ends. -/
def pyStripChars (l : List Char) : List Char :=
  ((l.dropWhile isPyWS).reverse.dropWhile isPyWS).reverse

/-- Python `str.strip()`. -/
def pyStrip (s : String) : String :=
  String.mk (pyStripChars s.data)

/-- Embedding of `TransformerConfig` (processor.py lines 11-21).  Optional
fields default to `None` in the dataclass; `Option` models that. -/
structure TransformerConfig where
  skip_rows : Nat
  drop_columns : Option (List Nat)
  date_columns : Option (List String)
  identifier_field : Option String
  target_fields : Option (List String)
  field_aliases : Option (List (String × String))
  search_radius : Nat
  column_search_radius : Nat

/-- Python truthiness of an optional string: `not x` is true for `None`
and for the empty string. -/
def strOptFalsy (x : Option String) : Bool :=
  match x with
  | none => true
  | some s => s = ""

/-- Python truthiness of an optional list: `not x` is true for `None`
and for the empty list. -/
def listOptFalsy {α : Type} (x : Option (List α)) : Bool :=
  match x with
  | none => true
  | some l => l.isEmpty

/-- `(config.field_aliases or {}).get(key, '')` from `_is_record_start`. -/
def aliasGetD (cfg : TransformerConfig) (key : String) : String :=
  ((cfg.field_aliases.getD []).lookup key).getD ""

/-- `_is_record_start` (processor.py lines 125-132): the row matches when any
non-null cell, trimmed, lies in `{identifier} | {aliases.get(identifier, '')}`. -/
def isRecordStart (row : List Cell) (cfg : TransformerConfig) : Bool :=
  let identifier := cfg.identifier_field.getD ""
  let validIdentifiers := [identifier, aliasGetD cfg identifier]
  row.any (fun c =>
    match c with
    | some s => validIdentifiers.contains (pyStrip s)
    | none => false)

/-- `pd.notnull(value) and str(value).strip()` followed by
`return str(value).strip()`: yields the trimmed value when it is non-empty. -/
def stripNonEmpty (c : Cell) : Option String :=
  match c with
  | some s => if pyStrip s = "" then none else some (pyStrip s)
  | none => none

/-- The label-column search of `_find_field_value` (lines 170-174): the first
column whose non-null trimmed cell lies in the alias set. -/
def findLabelColIdx (row : List Cell) (aliases : List String) : Option Nat :=
  row.findIdx? (fun c =>
    match c with
    | some s => aliases.contains (pyStrip s)
    | none => false)

/-- `_find_field_value` (processor.py lines 161-193).  `df.shape[1]` is the
row width (frames are rectangular, so the current row's length).  The
rightward scan covers `range(1, min(column_search_radius, width - col))`;
the downward scan covers `range(row+1, min(row+search_radius, len(df)))`;
the rightward result short-circuits the downward one. -/
def findFieldValue (g : Grid) (rowIdx : Nat) (aliases : List String)
    (cfg : TransformerConfig) : Option String :=
  let row := g.getD rowIdx []
  match findLabelColIdx row aliases with
  | none => none
  | some colIdx =>
    let rightScan :=
      (List.range' 1 (min cfg.column_search_radius (row.length - colIdx) - 1)).findSome?
        (fun off => stripNonEmpty (row.getD (colIdx + off) none))
    let downScan :=
      (List.range' (rowIdx + 1) (min (rowIdx + cfg.search_radius) g.length - (rowIdx + 1))).findSome?
        (fun k => stripNonEmpty ((g.getD k []).getD colIdx none))
    rightScan <|> downScan

/-- The alias set `{field} | {k for k, v in field_aliases.items() if v == field}`
built in `_extract_single_record` (lines 143-145). -/
def aliasSetFor (cfg : TransformerConfig) (field : String) : List String :=
  field :: ((cfg.field_aliases.getD []).filter (fun p => p.2 == field)).map (fun p => p.1)

/-- Python dict assignment `record[field] = value`: overwrite in place when
the key exists, otherwise append at the end (dicts preserve insertion order). -/
def recordInsert (record : Record) (f v : String) : Record :=
  if record.any (fun p => p.1 == f) then
    record.map (fun p => if p.1 == f then (f, v) else p)
  else
    record ++ [(f, v)]

/-- The per-field row loop of `_extract_single_record` (lines 149-157):
offsets `range(search_radius)`, `break` once `start+offset` leaves the grid,
return the first non-null `_find_field_value` result. -/
def fieldWindowValue (g : Grid) (start total : Nat) (aliases : List String)
    (cfg : TransformerConfig) : Option String :=
  ((List.range cfg.search_radius).takeWhile (fun off => start + off < total)).findSome?
    (fun off => findFieldValue g (start + off) aliases cfg)

/-- `_extract_single_record` (processor.py lines 134-159). -/
def extractSingleRecord (g : Grid) (start total : Nat)
    (cfg : TransformerConfig) : Record :=
  (cfg.target_fields.getD []).foldl
    (fun record field =>
      match fieldWindowValue g start total (aliasSetFor cfg field) cfg with
      | some v => recordInsert record field v
      | none => record)
    []

/-- `_find_next_record_start` (processor.py lines 195-204): the first index in
`range(start, total)` whose row is a record start, else `total`. -/
def findNextRecordStart (g : Grid) (start total : Nat)
    (cfg : TransformerConfig) : Nat :=
  match (List.range' start (total - start)).find?
      (fun i => isRecordStart (g.getD i []) cfg) with
  | some j => j
  | none => total

/-- The `while i < total_rows` loop of `_extract_records` (lines 110-120),
fuel-indexed: the fuel is an upper bound on the remaining iterations (the
index strictly increases each iteration, so `total_rows` always suffices).
Note line 114's `if record:`—an empty dict is falsy, so empty records are
not appended. -/
def extractRecordsLoop (g : Grid) (cfg : TransformerConfig) (total : Nat) :
    Nat → Nat → List Record
  | 0, _ => []
  | fuel + 1, i =>
    if i < total then
      if isRecordStart (g.getD i []) cfg then
        let r := extractSingleRecord g i total cfg
        let rest := extractRecordsLoop g cfg total fuel (findNextRecordStart g (i + 1) total cfg)
        if r.isEmpty then rest else r :: rest
      else
        extractRecordsLoop g cfg total fuel (i + 1)
    else
      []

/-- `_extract_records` (processor.py lines 102-123). -/
def extractRecords (g : Grid) (cfg : TransformerConfig) : List Record :=
  extractRecordsLoop g cfg g.length g.length 0


/-- `str.replace(old, new)` for a single-character pattern: replace every
occurrence of `a` by `b`. -/
def replaceAllChar (a b : Char) (l : List Char) : List Char :=
  l.map (fun c => if c = a then b else c)

/-- `str.replace(c, '')`: delete every occurrence of `c`. -/
def removeAllChar (a : Char) (l : List Char) : List Char :=
  l.filter (fun c => c ≠ a)

/-- ASCII uppercase letter test (the only characters Python's `str.lower`
moves on ASCII column labels). -/
def isUpperA (c : Char) : Bool :=
  65 ≤ c.toNat && c.toNat ≤ 90

/-- Python `str.lower()` on an ASCII character: shift `A`-`Z` down by 32. -/
def pyLower (c : Char) : Char :=
  if isUpperA c then Char.ofNat (c.toNat + 32) else c

/-- `str.replace('__', '_')`: non-overlapping left-to-right replacement of
each `"__"` occurrence by `"_"`. -/
def replaceUUonce : List Char → List Char
  | [] => []
  | [c] => [c]
  | a :: b :: t =>
    if a = '_' ∧ b = '_' then '_' :: replaceUUonce t
    else a :: replaceUUonce (b :: t)

/-- The final `str.replace('__+', '_', regex=True)` pass, threaded with a
flag recording whether the previous emitted character was an underscore:
an underscore directly following an underscore is dropped, so each maximal
run of underscores collapses to a single one (the regex rewrites runs of
length ≥ 2 to `"_"`; runs of length 1 are untouched — the same result). -/
def collapseUUGo : Bool → List Char → List Char
  | _, [] => []
  | prevU, a :: t =>
    if a = '_' then
      if prevU then collapseUUGo true t else '_' :: collapseUUGo true t
    else a :: collapseUUGo false t

/-- The final regex pass `str.replace('__+', '_', regex=True)`. -/
def collapseUU (l : List Char) : List Char :=
  collapseUUGo false l

/-- The column-name cleaning pipeline of `_clean_column_names`
(processor.py lines 227-238), applied to one label, in source order:
strip, delete newlines, lowercase, space→underscore, `"__"`→`"_"`,
`/`→`_`, delete `:`, collapse underscore runs. -/
def cleanChars (l : List Char) : List Char :=
  collapseUU (removeAllChar ':' (replaceAllChar '/' '_' (replaceUUonce
    (replaceAllChar ' ' '_' (List.map pyLower (removeAllChar '\n' (pyStripChars l)))))))

/-- `_clean_column_names` on a single column label. -/
def cleanColumnName (s : String) : String :=
  String.mk (cleanChars s.data)


/-- The labelled output table built by `_create_final_dataframe`: ordered
column labels plus one row of cells per record. -/
structure Table where
  header : List String
  rows : List (List Cell)
deriving DecidableEq, Repr

/-- The errors `transform` can raise.  The source raises only the two
`ValueError`s of `_validate_config` (processor.py lines 81-86); there is no
empty-input check anywhere in `transform`. -/
inductive TransformError where
  | configError (msg : String)
deriving DecidableEq, Repr

/-- `_validate_config` (processor.py lines 81-86): `not config.identifier_field`
then `not config.target_fields`, each raising a `ValueError`. -/
def validateConfig (cfg : TransformerConfig) : Option TransformError :=
  if strOptFalsy cfg.identifier_field then
    some (TransformError.configError "identifier_field must be specified in config")
  else if listOptFalsy cfg.target_fields then
    some (TransformError.configError "target_fields must be specified in config")
  else
    none

/-- `df.drop(df.columns[config.drop_columns], axis=1)`: remove the cells at
the listed column positions from every row. -/
def dropColumnsAt (g : Grid) (cols : List Nat) : Grid :=
  g.map (fun row =>
    ((row.enum).filter (fun p => !(cols.contains p.1))).map (fun p => p.2))

/-- `_apply_initial_transformations` (processor.py lines 88-100):
`df.iloc[skip_rows:].reset_index(drop=True)` when `skip_rows` is truthy, then
the column drop when `drop_columns` is truthy.  Both pandas calls return new
frames (no `inplace=True` anywhere), so the function is a pure grid-to-grid
map. -/
def applyInitialTransformations (g : Grid) (cfg : TransformerConfig) : Grid :=
  let g := if cfg.skip_rows ≠ 0 then g.drop cfg.skip_rows else g
  if listOptFalsy cfg.drop_columns = false then
    dropColumnsAt g (cfg.drop_columns.getD [])
  else g

/-- `pd.DataFrame(records)`: columns are the record keys in order of first
appearance; each record becomes a row, missing keys become NaN. -/
def recordsToTable (records : List Record) : Table :=
  let header := records.foldl
    (fun acc r => acc ++ ((r.map (fun p => p.1)).filter (fun f => ¬ acc.contains f))) []
  ⟨header, records.map (fun r => header.map (fun f => r.lookup f))⟩

/-- The `pd.to_datetime(df[col], errors='coerce')` update of one date column:
apply the external coercion to every cell of the column at index `idx`. -/
def coerceColumnAt (rows : List (List Cell)) (idx : Nat)
    (toDatetime : Cell → Cell) : List (List Cell) :=
  rows.map (fun row => row.enum.map (fun p => if p.1 = idx then toDatetime p.2 else p.2))

/-- `df.dropna(axis=1, how='all')`: keep a column only if some row has a
non-null cell there. -/
def dropEmptyColumns (t : Table) : Table :=
  let keep := fun j => t.rows.any (fun row => (row.getD j none).isSome)
  ⟨((t.header.enum).filter (fun p => keep p.1)).map (fun p => p.2),
   t.rows.map (fun row => ((row.enum).filter (fun p => keep p.1)).map (fun p => p.2))⟩

/-- `_create_final_dataframe` (processor.py lines 206-225).  `toDatetime`
models the external collaborator `pd.to_datetime(·, errors='coerce')`
(unparsable values become the missing marker, never an exception). -/
def createFinalDataframe (records : List Record) (cfg : TransformerConfig)
    (toDatetime : Cell → Cell) : Table :=
  let t := recordsToTable records
  let header := t.header.map cleanColumnName
  let rows := (cfg.date_columns.getD []).foldl
    (fun rows col =>
      match header.indexOf? col with
      | some idx => coerceColumnAt rows idx toDatetime
      | none => rows)
    t.rows
  dropEmptyColumns ⟨header, rows⟩

/-- `DataTransformer.transform` (processor.py lines 52-79): validate the
config, apply the initial transformations, extract records, assemble the
final frame.  There is no emptiness check on the input grid. -/
def transform (g : Grid) (cfg : TransformerConfig)
    (toDatetime : Cell → Cell) : Except TransformError Table :=
  match validateConfig cfg with
  | some e => Except.error e
  | none =>
    let g2 := applyInitialTransformations g cfg
    let records := extractRecords g2 cfg
    Except.ok (createFinalDataframe records cfg toDatetime)


/-- `ValidationResult` (validation.py lines 7-12). -/
structure ValidationResult where
  is_valid : Bool
  errors : List String
  warnings : List String
deriving DecidableEq, Repr

/-- The dict a custom validation function returns (validation.py lines
161-166): `result.get('valid', True)` and `result.get('message', ...)`. -/
structure CustomResult where
  valid : Option Bool
  message : Option String

/-- External stdlib/pandas collaborators the validator calls: `strptimeOk fmt v`
holds when `datetime.strptime(v, fmt)` succeeds or `v` is already a
datetime-typed value (the `isinstance` check on line 89); `ltBound`/`gtBound`
are the elementwise pandas comparisons `df[column] < bound` /
`df[column] > bound` against a float bound. -/
structure ExternalOps where
  strptimeOk : String → String → Bool
  ltBound : Cell → Rat → Bool
  gtBound : Cell → Rat → Bool

/-- The rule set dictionary (validation.py `rules`): each category is present
or absent.  Custom validations are dicts whose `'function'` key may be
missing (`validation.get('function')`, line 162). -/
structure ValidationRules where
  required_columns : Option (List String)
  date_format : Option (List (String × String))
  numeric_columns : Option (List String)
  min_value : Option (List (String × Rat))
  max_value : Option (List (String × Rat))
  unique_columns : Option (List String)
  custom_validations : Option (List (Option (Table → CustomResult)))

/-- The cells of the table column labelled `col` (`df[column]`), in row
order.  Labels are matched by `List.indexOf?` on the header. -/
def tableColumn (t : Table) (col : String) : List Cell :=
  match t.header.indexOf? col with
  | some idx => t.rows.map (fun row => row.getD idx none)
  | none => []

/-- `_validate_required_columns` (validation.py lines 71-77). -/
def validateRequiredColumns (t : Table) (required : List String) : List String :=
  let missing := required.filter (fun col => !(t.header.contains col))
  if missing.isEmpty then []
  else ["Missing required columns: " ++ toString missing]

/-- The per-cell date check of `_validate_dates` (lines 86-92): a non-null
value fails when it is not date-typed and `strptime` raises. -/
def dateCellOk (ops : ExternalOps) (fmt : String) (c : Cell) : Bool :=
  match c with
  | none => true
  | some v => ops.strptimeOk fmt v

/-- `_validate_dates` (validation.py lines 79-99): for each listed column
present in the frame, collect `"Row {idx}: {value}"` for every failing cell
and emit one aggregated error when any exist. -/
def validateDates (ops : ExternalOps) (t : Table)
    (dateFormats : List (String × String)) : List String :=
  dateFormats.foldl
    (fun errs p =>
      if t.header.contains p.1 then
        let cells := tableColumn t p.1
        let invalid := (cells.enum.filter
          (fun q => !(dateCellOk ops p.2 q.2))).map
          (fun q => "Row " ++ toString q.1 ++ ": " ++ toString q.2)
        if invalid.isEmpty then errs
        else errs ++ ["Invalid date format in column '" ++ p.1 ++
          "'. Expected format: " ++ p.2 ++ ". Found invalid values: " ++ toString invalid]
      else errs)
    []

/-- The per-cell check of `_validate_numeric_columns` (line 109):
`pd.isna(x) or str(x).replace('.', '').replace('-', '').isdigit()` — delete
every `.` and `-` anywhere in the string and require a non-empty digit
string. -/
def numericCellOk (c : Cell) : Bool :=
  match c with
  | none => true
  | some s =>
    let stripped := removeAllChar '-' (removeAllChar '.' s.data)
    !stripped.isEmpty && stripped.all Char.isDigit

/-- Row positions of the cells in column `col` that fail `numericCellOk`. -/
def nonNumericRows (t : Table) (col : String) : List Nat :=
  ((tableColumn t col).enum.filter (fun q => !(numericCellOk q.2))).map (fun q => q.1)

/-- `_validate_numeric_columns` (validation.py lines 101-116). -/
def validateNumericColumns (t : Table) (numericCols : List String) : List String :=
  numericCols.foldl
    (fun errs col =>
      if t.header.contains col then
        let bad := nonNumericRows t col
        if bad.isEmpty then errs
        else errs ++ ["Non-numeric values found in column '" ++ col ++
          "' at rows: " ++ toString bad]
      else errs)
    []

/-- `_validate_min_values` (validation.py lines 118-129): flag the rows whose
cell compares below the bound (`df[df[column] < min_value]`). -/
def validateMinValues (ops : ExternalOps) (t : Table)
    (minValues : List (String × Rat)) : List String :=
  minValues.foldl
    (fun errs p =>
      if t.header.contains p.1 then
        let bad := ((tableColumn t p.1).enum.filter
          (fun q => ops.ltBound q.2 p.2)).map (fun q => q.1)
        if bad.isEmpty then errs
        else errs ++ ["Values below minimum (" ++ toString p.2 ++
          ") found in column '" ++ p.1 ++ "' at rows: " ++ toString bad]
      else errs)
    []

/-- `_validate_max_values` (validation.py lines 131-142). -/
def validateMaxValues (ops : ExternalOps) (t : Table)
    (maxValues : List (String × Rat)) : List String :=
  maxValues.foldl
    (fun errs p =>
      if t.header.contains p.1 then
        let bad := ((tableColumn t p.1).enum.filter
          (fun q => ops.gtBound q.2 p.2)).map (fun q => q.1)
        if bad.isEmpty then errs
        else errs ++ ["Values above maximum (" ++ toString p.2 ++
          ") found in column '" ++ p.1 ++ "' at rows: " ++ toString bad]
      else errs)
    []

/-- `df[column].duplicated()`: a row position is a duplicate when the same
cell value occurs at an earlier position (pandas treats NaN as equal to
NaN here, matching `Option.decEq`). -/
def duplicatedRows (cells : List Cell) : List Nat :=
  (cells.enum.filter (fun q => (cells.take q.1).contains q.2)).map (fun q => q.1)

/-- `_validate_unique_columns` (validation.py lines 144-155). -/
def validateUniqueColumns (t : Table) (uniqueCols : List String) : List String :=
  uniqueCols.foldl
    (fun errs col =>
      if t.header.contains col then
        let dups := duplicatedRows (tableColumn t col)
        if dups.isEmpty then errs
        else errs ++ ["Duplicate values found in column '" ++ col ++
          "' at rows: " ++ toString dups]
      else errs)
    []

/-- `_run_custom_validations` (validation.py lines 157-166). -/
def runCustomValidations (t : Table)
    (validations : List (Option (Table → CustomResult))) : List String :=
  validations.foldl
    (fun errs v =>
      match v with
      | none => errs
      | some func =>
        let result := func t
        if result.valid.getD true then errs
        else errs ++ [result.message.getD "Custom validation failed"])
    []

/-- `DataValidator.validate` (validation.py lines 21-69): reset the
accumulators, run each rule category that is present in the rule set, in
the fixed source order, then compute `is_valid` from the final error list. -/
def validate (ops : ExternalOps) (t : Table) (rules : ValidationRules) :
    ValidationResult :=
  let errs : List String := []
  let errs := match rules.required_columns with
    | some rc => errs ++ validateRequiredColumns t rc
    | none => errs
  let errs := match rules.date_format with
    | some dfmt => errs ++ validateDates ops t dfmt
    | none => errs
  let errs := match rules.numeric_columns with
    | some nc => errs ++ validateNumericColumns t nc
    | none => errs
  let errs := match rules.min_value with
    | some mv => errs ++ validateMinValues ops t mv
    | none => errs
  let errs := match rules.max_value with
    | some mv => errs ++ validateMaxValues ops t mv
    | none => errs
  let errs := match rules.unique_columns with
    | some uc => errs ++ validateUniqueColumns t uc
    | none => errs
  let errs := match rules.custom_validations with
    | some cv => errs ++ runCustomValidations t cv
    | none => errs
  ⟨errs.length == 0, errs, []⟩

/-- The record-start condition as the claim words it: some non-null cell,
trimmed, equals the identifier field name or an alias of it, where the
aliases are the keys of `field_aliases` whose mapped value equals the
identifier (the identifier alone when no such key exists). -/
def isRecordStartClaimed (row : List Cell) (cfg : TransformerConfig) : Bool :=
  let ident := cfg.identifier_field.getD ""
  let aliasKeys :=
    ((cfg.field_aliases.getD []).filter (fun p => p.2 == ident)).map (fun p => p.1)
  row.any (fun c =>
    match c with
    | some s => (ident :: aliasKeys).contains (pyStrip s)
    | none => false)

/-- First trimmed non-empty cell value of a cell sequence, as the spec words
the two scans of `find_field_value`. -/
def firstTrimmedNonEmpty (cells : List Cell) : Option String :=
  (cells.filterMap stripNonEmpty).head?

/-- `find_field_value` as the spec words it: locate the label column; search
rightward over offsets `1 .. min(column_search_radius, remaining columns)-1`
and return the first trimmed non-empty value; only if that yields nothing,
search downward over rows `row+1 .. min(row+search_radius, grid height)-1`
in the label's column; otherwise null. -/
def findFieldValueSpec (g : Grid) (rowIdx : Nat) (aliases : List String)
    (cfg : TransformerConfig) : Option String :=
  let row := g.getD rowIdx []
  match findLabelColIdx row aliases with
  | none => none
  | some colIdx =>
    let remaining := row.length - colIdx
    let rightCells :=
      (List.range' 1 (min cfg.column_search_radius remaining - 1)).map
        (fun off => row.getD (colIdx + off) none)
    let downCells :=
      (List.range' (rowIdx + 1) (min (rowIdx + cfg.search_radius) g.length - (rowIdx + 1))).map
        (fun k => (g.getD k []).getD colIdx none)
    match firstTrimmedNonEmpty rightCells with
    | some v => some v
    | none => firstTrimmedNonEmpty downCells

/-- The field-window search as the spec words it: rows
`start_row .. start_row + search_radius - 1`, kept only while inside the
grid, in order; the first non-null `find_field_value` result. -/
def windowFirstValue (g : Grid) (start : Nat) (cfg : TransformerConfig)
    (field : String) : Option String :=
  (((List.range cfg.search_radius).map (fun off => start + off)).filter
      (fun r => r < g.length)).findSome?
    (fun r => findFieldValue g r (aliasSetFor cfg field) cfg)

/-- The sequence of identifier occurrences that begin record windows: the
same walk as `_extract_records` (scan from row 0, jump from each start to
the next record-start row strictly below it), recording the start indices. -/
def recordWindowStartsLoop (g : Grid) (cfg : TransformerConfig) (total : Nat) :
    Nat → Nat → List Nat
  | 0, _ => []
  | fuel + 1, i =>
    if i < total then
      if isRecordStart (g.getD i []) cfg then
        i :: recordWindowStartsLoop g cfg total fuel (findNextRecordStart g (i + 1) total cfg)
      else
        recordWindowStartsLoop g cfg total fuel (i + 1)
    else
      []

/-- The rows at which `_extract_records` opens a record window. -/
def recordWindowStarts (g : Grid) (cfg : TransformerConfig) : List Nat :=
  recordWindowStartsLoop g cfg g.length g.length 0

/-- A signed decimal numeral as the claim words it: an optional single
leading `-`, then digits with at most one `.` among them (and at least one
digit). -/
def isSignedDecimalNumeral (s : String) : Bool :=
  let body : List Char :=
    match s.data with
    | '-' :: rest => rest
    | l => l
  !body.isEmpty && body.all (fun c => c.isDigit || c = '.') &&
    (body.filter (fun c => c = '.')).length ≤ 1 && body.any Char.isDigit

/-- Row positions of the numeric-rule violations in one column, as the
amended claim words them: positions whose cell is non-null and whose string
form, with every `.` and `-` character deleted, is not a non-empty
digit string. -/
def offendingNumericRows (t : Table) (col : String) : List Nat :=
  ((tableColumn t col).enum.filter
    (fun q =>
      match q.2 with
      | none => false
      | some s =>
        !(!((s.data.filter (fun c => c ≠ '.')).filter (fun c => c ≠ '-')).isEmpty &&
          ((s.data.filter (fun c => c ≠ '.')).filter (fun c => c ≠ '-')).all Char.isDigit))).map
    (fun q => q.1)

/-- The `required_columns` category's contribution: empty when absent. -/
def requiredColumnsErrorsOpt (t : Table) (o : Option (List String)) : List String :=
  match o with
  | some rc => validateRequiredColumns t rc
  | none => []

/-- The `date_format` category's contribution: empty when absent. -/
def dateFormatErrorsOpt (ops : ExternalOps) (t : Table)
    (o : Option (List (String × String))) : List String :=
  match o with
  | some dfmt => validateDates ops t dfmt
  | none => []

/-- The `numeric_columns` category's contribution: empty when absent. -/
def numericColumnsErrorsOpt (t : Table) (o : Option (List String)) : List String :=
  match o with
  | some nc => validateNumericColumns t nc
  | none => []

/-- The `min_value` category's contribution: empty when absent. -/
def minValueErrorsOpt (ops : ExternalOps) (t : Table)
    (o : Option (List (String × Rat))) : List String :=
  match o with
  | some mv => validateMinValues ops t mv
  | none => []

/-- The `max_value` category's contribution: empty when absent. -/
def maxValueErrorsOpt (ops : ExternalOps) (t : Table)
    (o : Option (List (String × Rat))) : List String :=
  match o with
  | some mv => validateMaxValues ops t mv
  | none => []

/-- The `unique_columns` category's contribution: empty when absent. -/
def uniqueColumnsErrorsOpt (t : Table) (o : Option (List String)) : List String :=
  match o with
  | some uc => validateUniqueColumns t uc
  | none => []

/-- The `custom_validations` category's contribution: empty when absent. -/
def customValidationErrorsOpt (t : Table)
    (o : Option (List (Option (Table → CustomResult)))) : List String :=
  match o with
  | some cv => runCustomValidations t cv
  | none => []

/-- A heap of DataFrame objects, for stating that `transform` never mutates
its argument: references are list positions, allocation is appending. -/
abbrev GridHeap := List Grid

/-- `transform` over the object heap.  `df.iloc[skip:].reset_index(drop=True)`
and `df.drop(labels, axis=1)` both return new frames (the source passes no
`inplace=True` anywhere), so each rebinding of the local `df` allocates a
new heap object; the caller's object at `r` is never written.  The returned
reference points at the frame the scanner reads. -/
def transformHeap (h : GridHeap) (r : Nat) (cfg : TransformerConfig)
    (toDatetime : Cell → Cell) :
    GridHeap × Except TransformError (Nat × Table) :=
  match validateConfig cfg with
  | some e => (h, Except.error e)
  | none =>
    let p1 : GridHeap × Nat :=
      if cfg.skip_rows ≠ 0 then
        (h ++ [(h.getD r []).drop cfg.skip_rows], h.length)
      else (h, r)
    let p2 : GridHeap × Nat :=
      if listOptFalsy cfg.drop_columns = false then
        (p1.1 ++ [dropColumnsAt (p1.1.getD p1.2 []) (cfg.drop_columns.getD [])], p1.1.length)
      else p1
    let g2 := p2.1.getD p2.2 []
    (p2.1, Except.ok (p2.2, createFinalDataframe (extractRecords g2 cfg) cfg toDatetime))

/-- No two consecutive underscores occur in the character list. -/
def noUU : List Char → Bool
  | [] => true
  | [_] => true
  | a :: b :: t => !(a = '_' && b = '_') && noUU (b :: t)

/-! ## General list lemmas shared by the claim proofs -/

theorem findSome?_eq_head?_filterMap {α β : Type} (f : α → Option β) (l : List α) :
    l.findSome? f = (l.filterMap f).head? :=
  (List.filterMap_head? f l).symm

theorem takeWhile_eq_filter_range' (s t : Nat) :
    ∀ n a, (List.range' a n).takeWhile (fun off => s + off < t)
      = (List.range' a n).filter (fun off => s + off < t) := by
  intro n
  induction n with
  | zero => intro a; rfl
  | succ n ih =>
    intro a
    rw [List.range'_succ]
    by_cases h : s + a < t
    · simp [List.takeWhile_cons, List.filter_cons, h, ih]
    · simp only [List.takeWhile_cons, List.filter_cons, h, decide_eq_true_eq, if_neg,
        not_false_eq_true]
      rw [List.filter_eq_nil_iff.mpr]
      intro x hx
      rw [List.mem_range'] at hx
      obtain ⟨i, _, rfl⟩ := hx
      simp only [decide_eq_true_eq]
      omega

theorem foldl_extend {α : Type} (g : List String → α → List String)
    (f : α → Option String) (hg : ∀ acc x, g acc x = acc ++ (f x).toList) :
    ∀ (l : List α) (acc : List String), l.foldl g acc = acc ++ l.filterMap f := by
  intro l
  induction l with
  | nil => intro acc; simp
  | cons x xs ih =>
    intro acc
    rw [List.foldl_cons, hg, ih, List.filterMap_cons]
    cases f x <;> simp

theorem getD_append_left {α : Type} (l l' : List α) (j : Nat) (d : α)
    (h : j < l.length) : (l ++ l').getD j d = l.getD j d := by
  simp only [List.getD_eq_getElem?_getD]
  rw [List.getElem?_append_left h]

/-! ## C8: configuration errors are raised before the grid is touched -/

/-- C8: for every grid, every config whose `identifier_field` is empty or
absent or whose `target_fields` is empty or absent makes `transform` raise a
configuration error; the outcome is one fixed configuration error,
independent of the grid and of the date-coercion collaborator, so no row
skipping, column dropping, or scanning touches the grid. -/
theorem transform_config_error (g : Grid) (cfg : TransformerConfig)
    (toDatetime : Cell → Cell)
    (h : strOptFalsy cfg.identifier_field = true ∨ listOptFalsy cfg.target_fields = true) :
    (∃ msg, transform g cfg toDatetime = Except.error (TransformError.configError msg)) ∧
    (∀ (g' : Grid) (toDatetime' : Cell → Cell),
      transform g' cfg toDatetime' = transform g cfg toDatetime) := by
  by_cases h1 : strOptFalsy cfg.identifier_field = true
  · constructor
    · exact ⟨"identifier_field must be specified in config",
        by simp [transform, validateConfig, h1]⟩
    · intro g' toDatetime'
      simp [transform, validateConfig, h1]
  · have h2 : listOptFalsy cfg.target_fields = true := h.resolve_left h1
    constructor
    · exact ⟨"target_fields must be specified in config",
        by simp [transform, validateConfig, h1, h2]⟩
    · intro g' toDatetime'
      simp [transform, validateConfig, h1, h2]

/-- Witness for C8 at a concrete config with an empty identifier field. -/
theorem transform_config_error_witness :
    (∃ msg, transform [[some "ID"]]
        ⟨0, none, none, some "", some ["Name"], none, 10, 5⟩ (fun c => c)
      = Except.error (TransformError.configError msg)) ∧
    (∀ (g' : Grid) (toDatetime' : Cell → Cell),
      transform g' ⟨0, none, none, some "", some ["Name"], none, 10, 5⟩ toDatetime'
        = transform [[some "ID"]]
            ⟨0, none, none, some "", some ["Name"], none, 10, 5⟩ (fun c => c)) :=
  transform_config_error [[some "ID"]] _ _ (Or.inl (by decide))

/-! ## C5: `transform` on a zero-row grid -/

/-- C5 (against the claim and the repository's own test): on the empty grid
with a fully valid configuration, `transform` raises no input error at all:
configuration validation passes, the initial transformations and the scan
run on the empty grid, and an empty table is returned.  The source contains
no zero-row check, although `test_empty_dataframe` expects
`ValueError("Empty DataFrame provided")`. -/
theorem transform_empty_grid_returns_table (toDatetime : Cell → Cell) :
    transform [] ⟨0, none, none, some "Customer ID",
        some ["Customer ID", "Name"], none, 10, 5⟩ toDatetime
      = Except.ok ⟨[], []⟩ := by
  rfl

/-! ## C2: the record-start predicate -/

/-- C2 counterexample: with identifier `"ID"` and no aliases, the claim's
criterion rejects the row `[""]` (no cell trims to the identifier, and empty
cells must never match), yet `_is_record_start` accepts it: the implemented
identifier set is `{"ID", aliases.get("ID", '')} = {"ID", ""}`, so the
empty-string cell matches. -/
theorem isRecordStart_counterexample :
    isRecordStart [some ""] ⟨0, none, none, some "ID", some ["Name"], none, 10, 5⟩ = true ∧
    isRecordStartClaimed [some ""] ⟨0, none, none, some "ID", some ["Name"], none, 10, 5⟩ = false := by
  constructor <;> rfl

/-- C2 amended: for every row and config with non-empty `identifier_field`,
`_is_record_start` holds iff some non-null cell, trimmed, equals the
identifier or the value `field_aliases` maps the identifier to (the empty
string when the identifier is not a key of `field_aliases` — in that case a
non-null cell trimming to the empty string also matches). -/
theorem isRecordStart_iff (row : List Cell) (cfg : TransformerConfig)
    (ident : String) (h : cfg.identifier_field = some ident) (hne : ident ≠ "") :
    isRecordStart row cfg = true ↔
      ∃ s, some s ∈ row ∧ (pyStrip s = ident ∨ pyStrip s = aliasGetD cfg ident) := by
  have hne2 : ident ≠ "" := hne
  simp only [isRecordStart, h, Option.getD_some, List.any_eq_true]
  constructor
  · rintro ⟨c, hc, hp⟩
    cases c with
    | none => simp at hp
    | some s =>
      refine ⟨s, hc, ?_⟩
      simpa [List.contains, List.mem_cons] using hp
  · rintro ⟨s, hs, hor⟩
    refine ⟨some s, hs, ?_⟩
    simpa [List.contains, List.mem_cons] using hor

/-- Witness for C2 amended at a concrete aliased config and matching row. -/
theorem isRecordStart_iff_witness :
    isRecordStart [none, some " Cust "]
        ⟨0, none, none, some "Cust", some ["Name"], some [("Cust", "CID")], 10, 5⟩ = true ↔
      ∃ s, some s ∈ ([none, some " Cust "] : List Cell) ∧
        (pyStrip s = "Cust" ∨
          pyStrip s = aliasGetD
            ⟨0, none, none, some "Cust", some ["Name"], some [("Cust", "CID")], 10, 5⟩ "Cust") :=
  isRecordStart_iff _ _ _ rfl (by decide)

/-! ## C6: the numeric-columns rule -/

/-- C6 counterexample: `"1.2.3"` is not a signed decimal numeral by the
claim's grammar (two dots), yet `_validate_numeric_columns` records no
violation for it, because the check deletes every `.` and `-` before
testing `isdigit`. -/
theorem validateNumericColumns_counterexample :
    validateNumericColumns ⟨["amount"], [[some "1.2.3"]]⟩ ["amount"] = [] ∧
    isSignedDecimalNumeral "1.2.3" = false := by
  constructor <;> rfl

/-- The claim-worded offending-row set coincides with the source's filter. -/
theorem offendingNumericRows_eq (t : Table) (col : String) :
    offendingNumericRows t col = nonNumericRows t col := by
  unfold offendingNumericRows nonNumericRows
  congr 1
  apply List.filter_congr
  intro q _
  cases h : q.2 with
  | none => rfl
  | some s => simp only [h, numericCellOk, removeAllChar]

/-- C6 amended: for every table and column list, the numeric validator
emits, per listed column present in the table, exactly one aggregated error
naming the offending row positions — the positions whose cell is non-null
and whose string form, with every `.` and `-` character deleted (wherever
they occur and however many), is not a non-empty digit string — and no
error for columns without offenders or absent from the table. -/
theorem validateNumericColumns_amended (t : Table) (cols : List String) :
    validateNumericColumns t cols = cols.filterMap (fun col =>
      if t.header.contains col then
        match offendingNumericRows t col with
        | [] => none
        | bad => some ("Non-numeric values found in column '" ++ col ++
            "' at rows: " ++ toString bad)
      else none) := by
  unfold validateNumericColumns
  apply foldl_extend
  intro acc col
  rw [offendingNumericRows_eq t col]
  by_cases h : col ∈ t.header
  · cases hb : nonNumericRows t col with
    | nil => simp [h, hb]
    | cons x xs => simp [h, hb, Option.toList_some]
  · simp [h]

/-! ## C7: the validator runs every present category and aggregates -/

/-- Pull the accumulated prefix out of one present-or-absent rule step. -/
theorem optStep_eq {α : Type} (o : Option α) (errs : List String)
    (F : α → List String) :
    (match o with | some x => errs ++ F x | none => errs)
      = errs ++ (match o with | some x => F x | none => []) := by
  cases o <;> simp

/-- C7: `validate` executes every rule category present in the rule set —
its error list is exactly the concatenation of the seven categories'
independent contributions, in the fixed source order, with absent
categories contributing nothing — and `is_valid` is true iff that
accumulated error list is empty. -/
theorem validate_runs_all_categories (ops : ExternalOps) (t : Table)
    (rules : ValidationRules) :
    (validate ops t rules).errors =
      requiredColumnsErrorsOpt t rules.required_columns ++
      dateFormatErrorsOpt ops t rules.date_format ++
      numericColumnsErrorsOpt t rules.numeric_columns ++
      minValueErrorsOpt ops t rules.min_value ++
      maxValueErrorsOpt ops t rules.max_value ++
      uniqueColumnsErrorsOpt t rules.unique_columns ++
      customValidationErrorsOpt t rules.custom_validations ∧
    ((validate ops t rules).is_valid = true ↔ (validate ops t rules).errors = []) := by
  constructor
  · obtain ⟨rc, dfm, nc, mn, mx, uq, cv⟩ := rules
    cases rc <;> cases dfm <;> cases nc <;> cases mn <;> cases mx <;> cases uq <;> cases cv <;>
      simp [validate, requiredColumnsErrorsOpt, dateFormatErrorsOpt,
        numericColumnsErrorsOpt, minValueErrorsOpt, maxValueErrorsOpt,
        uniqueColumnsErrorsOpt, customValidationErrorsOpt, List.append_assoc]
  · have hv : (validate ops t rules).is_valid
        = ((validate ops t rules).errors.length == 0) := rfl
    rw [hv]
    generalize (validate ops t rules).errors = E
    simp [List.length_eq_zero]

/-! ## C3: `find_field_value` search order -/

/-- First trimmed non-empty value of mapped cells, as a `findSome?`. -/
theorem firstTrimmedNonEmpty_map {α : Type} (f : α → Cell) (l : List α) :
    firstTrimmedNonEmpty (l.map f) = l.findSome? (fun a => stripNonEmpty (f a)) := by
  unfold firstTrimmedNonEmpty
  rw [List.filterMap_map, List.filterMap_head?]
  rfl

/-- C3: `_find_field_value` agrees everywhere with its specification
reading: if no label column exists the result is null; otherwise the
rightward scan over column offsets `1 .. min(column_search_radius,
remaining columns)-1` returns the first trimmed non-empty cell, and only
when it yields nothing does the downward scan over rows
`row+1 .. min(row+search_radius, grid height)-1` in the label's column run;
if neither finds a value the result is null.  The rightward scan strictly
precedes the downward one. -/
theorem findFieldValue_eq_spec (g : Grid) (rowIdx : Nat) (aliases : List String)
    (cfg : TransformerConfig) :
    findFieldValue g rowIdx aliases cfg = findFieldValueSpec g rowIdx aliases cfg := by
  simp only [findFieldValue, findFieldValueSpec]
  cases h : findLabelColIdx (g.getD rowIdx []) aliases with
  | none => rfl
  | some colIdx =>
    dsimp only
    rw [firstTrimmedNonEmpty_map, firstTrimmedNonEmpty_map]
    cases hr : (List.range' 1 (min cfg.column_search_radius ((g.getD rowIdx []).length - colIdx) - 1)).findSome?
        (fun off => stripNonEmpty ((g.getD rowIdx []).getD (colIdx + off) none)) with
    | none => simp [hr, Option.orElse]
    | some v => simp [hr, Option.orElse]

/-! ## C4: per-field window search in `_extract_single_record` -/

/-- A trimmed-non-empty result is never the empty string. -/
theorem stripNonEmpty_ne_empty (c : Cell) (v : String)
    (h : stripNonEmpty c = some v) : v ≠ "" := by
  unfold stripNonEmpty at h
  cases c with
  | none => simp at h
  | some s =>
    by_cases he : pyStrip s = ""
    · simp [he] at h
    · simp [he] at h
      exact h ▸ he

/-- `_find_field_value` never returns the empty string. -/
theorem findFieldValue_ne_empty (g : Grid) (r : Nat) (aliases : List String)
    (cfg : TransformerConfig) (v : String)
    (h : findFieldValue g r aliases cfg = some v) : v ≠ "" := by
  simp only [findFieldValue] at h
  cases hl : findLabelColIdx (g.getD r []) aliases with
  | none => rw [hl] at h; simp at h
  | some colIdx =>
    rw [hl] at h
    dsimp only at h
    cases hr : (List.range' 1 (min cfg.column_search_radius ((g.getD r []).length - colIdx) - 1)).findSome?
        (fun off => stripNonEmpty ((g.getD r []).getD (colIdx + off) none)) with
    | some w =>
      rw [hr] at h
      simp only [Option.some_orElse] at h
      obtain ⟨c, _, hc⟩ := List.exists_of_findSome?_eq_some hr
      have hw := Option.some.inj h
      exact fun e => stripNonEmpty_ne_empty _ _ hc (hw.trans e)
    | none =>
      rw [hr] at h
      simp only [Option.none_orElse] at h
      obtain ⟨c, _, hc⟩ := List.exists_of_findSome?_eq_some h
      exact stripNonEmpty_ne_empty _ _ hc

/-- The window search never produces the empty string. -/
theorem fieldWindowValue_ne_empty (g : Grid) (start total : Nat)
    (aliases : List String) (cfg : TransformerConfig) (v : String)
    (h : fieldWindowValue g start total aliases cfg = some v) : v ≠ "" := by
  obtain ⟨off, _, hoff⟩ := List.exists_of_findSome?_eq_some h
  exact findFieldValue_ne_empty _ _ _ _ _ hoff

/-- Lookup skips a head pair with a different key. -/
theorem lookup_cons_ne {β : Type} (k f : String) (w : β) (t : List (String × β))
    (h : k ≠ f) : ((k, w) :: t).lookup f = t.lookup f := by
  rw [List.lookup_cons]
  have hb : (f == k) = false := by
    simp only [beq_eq_false_iff_ne, ne_eq]
    exact fun e => h e.symm
  rw [hb]

/-- Lookup hits a head pair with the same key. -/
theorem lookup_cons_self {β : Type} (f : String) (w : β) (t : List (String × β)) :
    ((f, w) :: t).lookup f = some w := by
  rw [List.lookup_cons]
  simp

/-- Looking up the freshly written key of a dict assignment. -/
theorem recordInsert_lookup_self (rec : Record) (f v : String) :
    (recordInsert rec f v).lookup f = some v := by
  unfold recordInsert
  by_cases h : rec.any (fun p => p.1 == f) = true
  · rw [if_pos h]
    induction rec with
    | nil => simp at h
    | cons p t ih =>
      obtain ⟨k, w⟩ := p
      simp only [List.any_cons, Bool.or_eq_true] at h
      by_cases hk : k = f
      · subst hk
        simp only [List.map_cons, beq_self_eq_true, if_pos]
        exact lookup_cons_self k v _
      · have ht : (t.any fun p => p.1 == f) = true := by
          rcases h with h1 | h1
          · exact absurd (beq_iff_eq.mp h1) hk
          · exact h1
        simp only [List.map_cons]
        rw [if_neg (by simp [hk])]
        rw [lookup_cons_ne k f w _ hk]
        exact ih ht
  · rw [if_neg h]
    induction rec with
    | nil => exact lookup_cons_self f v []
    | cons p t ih =>
      obtain ⟨k, w⟩ := p
      simp only [List.any_cons, Bool.or_eq_true, not_or] at h
      have hk : k ≠ f := by
        intro e
        exact h.1 (by simp [e])
      rw [List.cons_append, lookup_cons_ne k f w _ hk]
      exact ih (by simpa using h.2)

/-- A dict assignment leaves every other key's lookup unchanged. -/
theorem recordInsert_lookup_ne (rec : Record) (f v fld : String) (h : fld ≠ f) :
    (recordInsert rec f v).lookup fld = rec.lookup fld := by
  unfold recordInsert
  by_cases ha : rec.any (fun p => p.1 == f) = true
  · rw [if_pos ha]
    clear ha
    induction rec with
    | nil => rfl
    | cons p t ih =>
      obtain ⟨k, w⟩ := p
      by_cases hk : k = f
      · subst hk
        simp only [List.map_cons, beq_self_eq_true, if_pos]
        rw [lookup_cons_ne k fld v _ (fun e => h e.symm)]
        rw [lookup_cons_ne k fld w _ (fun e => h e.symm)]
        exact ih
      · simp only [List.map_cons]
        rw [if_neg (by simp [hk])]
        by_cases hkf : k = fld
        · subst hkf
          rw [lookup_cons_self, lookup_cons_self]
        · rw [lookup_cons_ne k fld w _ hkf, lookup_cons_ne k fld w _ hkf]
          exact ih
  · rw [if_neg ha]
    induction rec with
    | nil =>
      simp only [List.nil_append]
      rw [lookup_cons_ne f fld v [] (fun e => h e.symm)]
    | cons p t ih =>
      obtain ⟨k, w⟩ := p
      simp only [List.any_cons, Bool.or_eq_true, not_or] at ha
      by_cases hkf : k = fld
      · subst hkf
        rw [List.cons_append, lookup_cons_self, lookup_cons_self]
      · rw [List.cons_append, lookup_cons_ne k fld w _ hkf, lookup_cons_ne k fld w _ hkf]
        exact ih (by simpa using ha.2)

/-- The per-field fold of `_extract_single_record`: a field's final lookup is
the window-search result when the field is targeted (with the accumulator's
binding surviving only when the window finds nothing), and the accumulator's
binding otherwise. -/
theorem extract_foldl_lookup (g : Grid) (start total : Nat)
    (cfg : TransformerConfig) (field : String) :
    ∀ (fields : List String) (acc : Record),
    ((fields.foldl (fun record fld =>
        match fieldWindowValue g start total (aliasSetFor cfg fld) cfg with
        | some v => recordInsert record fld v
        | none => record) acc).lookup field) =
      if fields.contains field then
        match fieldWindowValue g start total (aliasSetFor cfg field) cfg with
        | some v => some v
        | none => acc.lookup field
      else acc.lookup field := by
  intro fields
  induction fields with
  | nil => intro acc; simp
  | cons fld rest ih =>
    intro acc
    rw [List.foldl_cons]
    by_cases hfe : fld = field
    · subst hfe
      simp only [List.contains_cons, beq_self_eq_true, Bool.true_or, if_pos]
      cases hw : fieldWindowValue g start total (aliasSetFor cfg fld) cfg with
      | some v =>
        simp only [hw, ih]
        rw [recordInsert_lookup_self]
        simp
      | none =>
        simp only [hw, ih]
        by_cases hrest : rest.contains fld = true
        · simp [hrest, hw]
        · simp [hrest]
    · have hcons : (fld :: rest).contains field = rest.contains field := by
        simp only [List.contains_cons, Bool.or_eq_true]
        have hne : (field == fld) = false := by
          simp only [beq_eq_false_iff_ne, ne_eq]
          exact fun e => hfe e.symm
        simp [hne]
      rw [hcons]
      cases hw : fieldWindowValue g start total (aliasSetFor cfg fld) cfg with
      | some v =>
        simp only [hw, ih]
        rw [recordInsert_lookup_ne _ _ _ _ (Ne.symm hfe)]
      | none =>
        simp only [hw, ih]

/-- Every value the per-field fold stores comes from a window search, so no
empty-string (or other placeholder) value ever enters the record. -/
theorem extract_foldl_values (g : Grid) (start total : Nat)
    (cfg : TransformerConfig) :
    ∀ (fields : List String) (acc : Record), (∀ p ∈ acc, p.2 ≠ "") →
    ∀ p ∈ (fields.foldl (fun record fld =>
        match fieldWindowValue g start total (aliasSetFor cfg fld) cfg with
        | some v => recordInsert record fld v
        | none => record) acc), p.2 ≠ "" := by
  intro fields
  induction fields with
  | nil => intro acc hacc; simpa using hacc
  | cons fld rest ih =>
    intro acc hacc
    rw [List.foldl_cons]
    cases hw : fieldWindowValue g start total (aliasSetFor cfg fld) cfg with
    | some v =>
      refine ih (recordInsert acc fld v) ?_
      intro p hp
      unfold recordInsert at hp
      by_cases ha : acc.any (fun q => q.1 == fld) = true
      · rw [if_pos ha] at hp
        obtain ⟨q, hq, hmap⟩ := List.mem_map.mp hp
        by_cases hqf : q.1 == fld
        · rw [if_pos hqf] at hmap
          rw [← hmap]
          exact fieldWindowValue_ne_empty _ _ _ _ _ _ hw
        · rw [if_neg hqf] at hmap
          exact hmap ▸ hacc q hq
      · rw [if_neg ha] at hp
        rcases List.mem_append.mp hp with hq | hq
        · exact hacc p hq
        · rcases List.mem_singleton.mp hq with rfl
          exact fieldWindowValue_ne_empty _ _ _ _ _ _ hw
    | none => exact ih acc hacc

/-- The `break`-style window loop of the source equals the spec's
bounded-row reading of the window. -/
theorem fieldWindowValue_eq_windowFirstValue (g : Grid) (start : Nat)
    (cfg : TransformerConfig) (field : String) :
    fieldWindowValue g start g.length (aliasSetFor cfg field) cfg
      = windowFirstValue g start cfg field := by
  unfold fieldWindowValue windowFirstValue
  rw [List.range_eq_range', takeWhile_eq_filter_range' start g.length]
  rw [List.filter_map, List.findSome?_map]
  congr 1

/-- C4: for every grid, start row, valid config and field,
`_extract_single_record` binds a targeted field to the first non-null
`find_field_value` result over rows `start .. start+search_radius-1`
(bounded by the grid height, in order) and omits the field entirely when no
row in the window yields a value; untargeted fields are never present; and
no field is ever bound to an empty-string placeholder. -/
theorem extractSingleRecord_spec (g : Grid) (start : Nat)
    (cfg : TransformerConfig) (field : String) :
    ((extractSingleRecord g start g.length cfg).lookup field =
      if (cfg.target_fields.getD []).contains field then
        windowFirstValue g start cfg field
      else none) ∧
    ∀ p ∈ extractSingleRecord g start g.length cfg, p.2 ≠ "" := by
  constructor
  · unfold extractSingleRecord
    rw [extract_foldl_lookup]
    by_cases h : (cfg.target_fields.getD []).contains field = true
    · rw [if_pos h, if_pos h, ← fieldWindowValue_eq_windowFirstValue]
      cases hw : fieldWindowValue g start g.length (aliasSetFor cfg field) cfg <;> simp
    · rw [if_neg h, if_neg h]
      rfl
  · intro p hp
    exact extract_foldl_values g start g.length cfg _ [] (by simp) p hp

/-- Witness for C4 at a concrete two-row grid. -/
theorem extractSingleRecord_spec_witness :
    ((extractSingleRecord [[some "ID", none], [some "Name", some "Bob"]] 0
        ([[some "ID", none], [some "Name", some "Bob"]] : Grid).length
        ⟨0, none, none, some "ID", some ["Name"], none, 10, 5⟩).lookup "Name" =
      if ((⟨0, none, none, some "ID", some ["Name"], none, 10, 5⟩ :
          TransformerConfig).target_fields.getD []).contains "Name" then
        windowFirstValue [[some "ID", none], [some "Name", some "Bob"]] 0
          ⟨0, none, none, some "ID", some ["Name"], none, 10, 5⟩ "Name"
      else none) ∧
    ∀ p ∈ extractSingleRecord [[some "ID", none], [some "Name", some "Bob"]] 0
        ([[some "ID", none], [some "Name", some "Bob"]] : Grid).length
        ⟨0, none, none, some "ID", some ["Name"], none, 10, 5⟩, p.2 ≠ "" :=
  extractSingleRecord_spec _ 0 _ "Name"

/-! ## C1: records appended per identifier occurrence -/

/-- The scan loop emits exactly the per-window extracted records of the
window-start rows, dropping the empty ones (line 114's `if record:`). -/
theorem extractRecordsLoop_eq (g : Grid) (cfg : TransformerConfig) (total : Nat) :
    ∀ (fuel i : Nat),
    extractRecordsLoop g cfg total fuel i =
      ((recordWindowStartsLoop g cfg total fuel i).map
        (fun j => extractSingleRecord g j total cfg)).filter (fun r => !r.isEmpty) := by
  intro fuel
  induction fuel with
  | zero => intro i; rfl
  | succ fuel ih =>
    intro i
    unfold extractRecordsLoop recordWindowStartsLoop
    by_cases hi : i < total
    · rw [if_pos hi, if_pos hi]
      by_cases hs : isRecordStart (g.getD i []) cfg = true
      · rw [if_pos hs, if_pos hs]
        rw [List.map_cons, List.filter_cons, ih]
        by_cases he : (extractSingleRecord g i total cfg).isEmpty = true
        · simp [he]
        · simp [he]
      · rw [if_neg hs, if_neg hs, ih]
    · rw [if_neg hi, if_neg hi]
      rfl

/-- C1 counterexample: one identifier row whose window contains no target
field.  `_is_record_start` holds at row 0 and the walk opens exactly one
record window there, but the extracted record is the empty mapping, and line
114's `if record:` drops it: `extract_records` returns no records, so the
record count (0) differs from the identifier-occurrence count (1). -/
theorem extractRecords_drops_empty_record :
    extractRecords [[some "ID"]]
        ⟨0, none, none, some "ID", some ["Name"], none, 10, 5⟩ = [] ∧
    recordWindowStarts [[some "ID"]]
        ⟨0, none, none, some "ID", some ["Name"], none, 10, 5⟩ = [0] ∧
    isRecordStart [some "ID"]
        ⟨0, none, none, some "ID", some ["Name"], none, 10, 5⟩ = true := by
  refine ⟨rfl, rfl, rfl⟩

/-- C1 amended: for every grid and config, `extract_records` returns, in
order, the records extracted at the window-starting identifier occurrences
whose extracted mapping is non-empty; a window whose record is the empty
mapping contributes nothing, so the record count equals the number of
window-starting identifier occurrences with at least one extracted field,
not the total number of window-starting occurrences. -/
theorem extractRecords_eq_nonempty_window_records (g : Grid)
    (cfg : TransformerConfig) :
    extractRecords g cfg =
      ((recordWindowStarts g cfg).map
        (fun j => extractSingleRecord g j g.length cfg)).filter
        (fun r => !r.isEmpty) :=
  extractRecordsLoop_eq g cfg g.length g.length 0

/-! ## C10: `transform` never mutates the caller's grid -/

/-- C10: over the object heap, `transform` only allocates: every
pre-existing object — in particular the caller's input grid at reference
`r` — is unchanged when `transform` returns, whether it returns a table or
raises a configuration error.  Row skipping and column dropping build new
frames (`iloc`/`reset_index`/`drop` without `inplace`), and the final-frame
assembly only reads the extracted records. -/
theorem transformHeap_preserves_input (h : GridHeap) (r : Nat)
    (cfg : TransformerConfig) (toDatetime : Cell → Cell) (j : Nat)
    (hj : j < h.length) :
    (transformHeap h r cfg toDatetime).1.getD j [] = h.getD j [] := by
  unfold transformHeap
  cases hv : validateConfig cfg with
  | some e => rfl
  | none =>
    dsimp only
    by_cases hs : cfg.skip_rows ≠ 0
    · rw [if_pos hs]
      by_cases hd : listOptFalsy cfg.drop_columns = false
      · rw [if_pos hd]
        dsimp only
        rw [getD_append_left _ _ j _ (by simp; omega), getD_append_left _ _ j _ hj]
      · rw [if_neg hd]
        dsimp only
        rw [getD_append_left _ _ j _ hj]
    · rw [if_neg hs]
      by_cases hd : listOptFalsy cfg.drop_columns = false
      · rw [if_pos hd]
        dsimp only
        rw [getD_append_left _ _ j _ hj]
      · rw [if_neg hd]

/-- Witness for C10: a run whose config makes both the row skip and the
column drop allocate; the caller's grid at reference 0 is unchanged. -/
theorem transformHeap_preserves_input_witness :
    (transformHeap [[[some "x", some "ID"], [some "Name", some "Bob"]]] 0
        ⟨1, some [0], none, some "ID", some ["Name"], none, 10, 5⟩
        (fun c => c)).1.getD 0 []
      = [[some "x", some "ID"], [some "Name", some "Bob"]] :=
  transformHeap_preserves_input _ 0 _ _ 0 (by decide)

/-! ## C9: column-name cleaning -/

/-- C9 counterexample: cleaning `": <tab>x"` once yields `"<tab>x"` (the
`:` removal, which runs after `strip`, exposes a leading tab), and cleaning
that again strips the tab, so the pipeline is not idempotent. -/
theorem cleanColumnName_not_idempotent :
    cleanColumnName (cleanColumnName ":\tx") ≠ cleanColumnName ":\tx" := by
  decide

/-- Lowercasing an ASCII uppercase letter lands in `a`-`z`. -/
theorem pyLower_toNat_bounds (c : Char) (h : isUpperA c = true) :
    97 ≤ (pyLower c).toNat ∧ (pyLower c).toNat ≤ 122 := by
  unfold pyLower
  rw [if_pos h]
  unfold isUpperA at h
  simp only [Bool.and_eq_true, decide_eq_true_eq] at h
  obtain ⟨h1, h2⟩ := h
  set n := c.toNat with hn
  interval_cases n <;> exact ⟨by decide, by decide⟩

/-- `pyLower` fixes everything that is not an ASCII uppercase letter. -/
theorem pyLower_eq_self (c : Char) (h : isUpperA c = false) : pyLower c = c := by
  unfold pyLower
  rw [if_neg (by simp [h])]

/-- Characters in `a`-`z` are not Python whitespace. -/
theorem not_ws_of_lower_range (c : Char) (h1 : 97 ≤ c.toNat) : isPyWS c = false := by
  have hsp : c ≠ ' ' := fun e => by subst e; revert h1; decide
  have hta : c ≠ '\t' := fun e => by subst e; revert h1; decide
  have hnl : c ≠ '\n' := fun e => by subst e; revert h1; decide
  have hcr : c ≠ '\r' := fun e => by subst e; revert h1; decide
  have hvt : c ≠ Char.ofNat 11 := fun e => by subst e; revert h1; decide
  have hff : c ≠ Char.ofNat 12 := fun e => by subst e; revert h1; decide
  simp [isPyWS, hsp, hta, hnl, hcr, hvt, hff]

/-- Lowercasing never produces an uppercase letter. -/
theorem isUpperA_pyLower (c : Char) : isUpperA (pyLower c) = false := by
  by_cases h : isUpperA c = true
  · obtain ⟨h1, _⟩ := pyLower_toNat_bounds c h
    unfold isUpperA
    simp only [Bool.and_eq_true, Bool.and_eq_false_iff, decide_eq_false_iff_not, not_le]
    right
    omega
  · rw [pyLower_eq_self c (by simpa using h)]
    simpa using h

/-- Characters in `a`-`z` differ from any character below `a`. -/
theorem ne_char_of_lower_range (c d : Char) (h1 : 97 ≤ c.toNat)
    (hd : d.toNat < 97) : c ≠ d := by
  intro e
  subst e
  omega

/-- `noUU` passes to the tail. -/
theorem noUU_tail (a : Char) (t : List Char) (h : noUU (a :: t) = true) :
    noUU t = true := by
  cases t with
  | nil => rfl
  | cons b t' =>
    unfold noUU at h
    rw [Bool.and_eq_true] at h
    exact h.2

/-- `noUU` of a cons, when the head or the next character is not `'_'`. -/
theorem noUU_cons_of (a : Char) (t : List Char)
    (h : a ≠ '_' ∨ t.head? ≠ some '_') (ht : noUU t = true) :
    noUU (a :: t) = true := by
  cases t with
  | nil => rfl
  | cons b t' =>
    unfold noUU
    rw [Bool.and_eq_true]
    refine ⟨?_, ht⟩
    rcases h with h | h
    · simp [h]
    · have hb : b ≠ '_' := by simpa using h
      simp [hb]

/-- After an underscore was just emitted, the collapse never starts with one. -/
theorem head?_collapseUUGo_true (m : List Char) :
    (collapseUUGo true m).head? ≠ some '_' := by
  induction m with
  | nil => simp [collapseUUGo]
  | cons a t ih =>
    unfold collapseUUGo
    by_cases ha : a = '_'
    · simpa [ha] using ih
    · simp [ha]

/-- The collapse output never has two consecutive underscores. -/
theorem noUU_collapseUUGo (m : List Char) :
    ∀ prevU, noUU (collapseUUGo prevU m) = true := by
  induction m with
  | nil => intro p; rfl
  | cons a t ih =>
    intro prevU
    unfold collapseUUGo
    by_cases ha : a = '_'
    · rw [if_pos ha]
      cases prevU with
      | true => simpa using ih true
      | false =>
        simp only [Bool.false_eq_true, if_false]
        exact noUU_cons_of _ _ (Or.inr (head?_collapseUUGo_true t)) (ih true)
    · rw [if_neg ha]
      exact noUU_cons_of _ _ (Or.inl ha) (ih false)

/-- Every character of the collapse output occurs in the input. -/
theorem mem_collapseUUGo (c : Char) (m : List Char) :
    ∀ prevU, c ∈ collapseUUGo prevU m → c ∈ m := by
  induction m with
  | nil => intro p h; simp [collapseUUGo] at h
  | cons a t ih =>
    intro prevU h
    unfold collapseUUGo at h
    by_cases ha : a = '_'
    · rw [if_pos ha] at h
      cases prevU with
      | true =>
        simp only [if_pos] at h
        exact List.mem_cons_of_mem a (ih true h)
      | false =>
        simp only [Bool.false_eq_true, if_false] at h
        rcases List.mem_cons.mp h with rfl | h
        · exact ha ▸ List.mem_cons_self a t
        · exact List.mem_cons_of_mem a (ih true h)
    · rw [if_neg ha] at h
      rcases List.mem_cons.mp h with rfl | h
      · exact List.mem_cons_self c t
      · exact List.mem_cons_of_mem a (ih false h)

/-- Every character of the `"__"`-replacement output occurs in the input. -/
theorem mem_replaceUUonce (c : Char) : ∀ m, c ∈ replaceUUonce m → c ∈ m := by
  intro m
  induction m using replaceUUonce.induct with
  | case1 => intro h; simp [replaceUUonce] at h
  | case2 d => intro h; simpa [replaceUUonce] using h
  | case3 a b t hab ih =>
    intro h
    unfold replaceUUonce at h
    rw [if_pos hab] at h
    rcases List.mem_cons.mp h with rfl | h
    · exact hab.1 ▸ List.mem_cons_self _ _
    · exact List.mem_cons_of_mem a (List.mem_cons_of_mem b (ih h))
  | case4 a b t hab ih =>
    intro h
    unfold replaceUUonce at h
    rw [if_neg hab] at h
    rcases List.mem_cons.mp h with rfl | h
    · exact List.mem_cons_self c _
    · exact List.mem_cons_of_mem a (ih h)

/-- Every character of a single-character replacement is the replacement or
an input character. -/
theorem mem_replaceAllChar (c a b : Char) (m : List Char)
    (h : c ∈ replaceAllChar a b m) : c = b ∨ (c ∈ m ∧ c ≠ a) := by
  unfold replaceAllChar at h
  obtain ⟨d, hd, he⟩ := List.mem_map.mp h
  by_cases hda : d = a
  · rw [if_pos hda] at he
    exact Or.inl he.symm
  · rw [if_neg hda] at he
    exact Or.inr ⟨he ▸ hd, he ▸ hda⟩

/-- Deleting a character only removes characters. -/
theorem mem_removeAllChar (c a : Char) (m : List Char)
    (h : c ∈ removeAllChar a m) : c ∈ m ∧ c ≠ a := by
  unfold removeAllChar at h
  have hm := List.mem_filter.mp h
  exact ⟨hm.1, by simpa using hm.2⟩

/-- Every character of the stripped list occurs in the input. -/
theorem mem_pyStripChars (c : Char) (l : List Char) (h : c ∈ pyStripChars l) :
    c ∈ l := by
  unfold pyStripChars at h
  rw [List.mem_reverse] at h
  have h2 := (List.dropWhile_sublist _).subset h
  rw [List.mem_reverse] at h2
  exact (List.dropWhile_sublist _).subset h2

/-- `dropWhile` is the identity when no element satisfies the predicate. -/
theorem dropWhile_eq_self_of_all {α : Type} (p : α → Bool) (l : List α)
    (h : ∀ c ∈ l, p c = false) : l.dropWhile p = l := by
  cases l with
  | nil => rfl
  | cons a t =>
    rw [List.dropWhile_cons, if_neg]
    simp [h a (List.mem_cons_self a t)]

/-- Stripping a list without whitespace is the identity. -/
theorem pyStripChars_eq_self (l : List Char) (h : ∀ c ∈ l, isPyWS c = false) :
    pyStripChars l = l := by
  unfold pyStripChars
  rw [dropWhile_eq_self_of_all _ _ h,
    dropWhile_eq_self_of_all _ _ (fun c hc => h c (List.mem_reverse.mp hc)),
    List.reverse_reverse]

/-- Deleting a character that does not occur is the identity. -/
theorem removeAllChar_eq_self (a : Char) (l : List Char)
    (h : ∀ c ∈ l, c ≠ a) : removeAllChar a l = l := by
  unfold removeAllChar
  apply List.filter_eq_self.mpr
  intro c hc
  simpa using h c hc

/-- Lowercasing a list without uppercase letters is the identity. -/
theorem map_pyLower_eq_self (l : List Char) (h : ∀ c ∈ l, isUpperA c = false) :
    l.map pyLower = l := by
  have he : ∀ c ∈ l, pyLower c = id c := fun c hc => pyLower_eq_self c (h c hc)
  rw [List.map_congr_left he, List.map_id]

/-- Replacing a character that does not occur is the identity. -/
theorem replaceAllChar_eq_self (a b : Char) (l : List Char)
    (h : ∀ c ∈ l, c ≠ a) : replaceAllChar a b l = l := by
  unfold replaceAllChar
  have he : ∀ c ∈ l, (if c = a then b else c) = id c := by
    intro c hc
    rw [if_neg (h c hc)]
    rfl
  rw [List.map_congr_left he, List.map_id]

/-- The `"__"` replacement is the identity without consecutive underscores. -/
theorem replaceUUonce_eq_self : ∀ m, noUU m = true → replaceUUonce m = m := by
  intro m
  induction m using replaceUUonce.induct with
  | case1 => intro _; rfl
  | case2 d => intro _; rfl
  | case3 a b t hab ih =>
    intro h
    unfold noUU at h
    rw [Bool.and_eq_true] at h
    simp [hab.1, hab.2] at h
  | case4 a b t hab ih =>
    intro h
    unfold replaceUUonce
    rw [if_neg hab]
    rw [ih (noUU_tail _ _ h)]

/-- After an underscore the next character is not one, given `noUU`. -/
theorem noUU_head (t : List Char) (h : noUU ('_' :: t) = true) :
    t.head? ≠ some '_' := by
  cases t with
  | nil => simp
  | cons b t' =>
    unfold noUU at h
    rw [Bool.and_eq_true] at h
    have hb : b ≠ '_' := by
      intro e
      simp [e] at h
    simp [hb]

/-- The underscore-run collapse is the identity without consecutive
underscores (the flag must not claim a just-emitted underscore when the
list starts with one). -/
theorem collapseUUGo_eq_self (m : List Char) :
    ∀ prevU, noUU m = true → (prevU = true → m.head? ≠ some '_') →
    collapseUUGo prevU m = m := by
  induction m with
  | nil => intro p _ _; rfl
  | cons a t ih =>
    intro prevU hm hp
    unfold collapseUUGo
    by_cases ha : a = '_'
    · rw [if_pos ha]
      have hprev : prevU = false := by
        cases prevU with
        | false => rfl
        | true => exact absurd (by simp [ha]) (hp rfl)
      subst hprev
      simp only [Bool.false_eq_true, if_false]
      subst ha
      rw [ih true (noUU_tail _ _ hm) (fun _ => noUU_head t hm)]
    · rw [if_neg ha]
      rw [ih false (noUU_tail _ _ hm) (by simp)]

/-- One cleaning pass, on a label whose only whitespace is spaces and
newlines, leaves no whitespace, no uppercase ASCII letters, no `/`, no `:`,
and no consecutive underscores. -/
theorem cleanChars_good (l : List Char)
    (hws : ∀ c ∈ l, isPyWS c = true → c = ' ' ∨ c = '\n') :
    (∀ c ∈ cleanChars l,
      isPyWS c = false ∧ isUpperA c = false ∧ c ≠ '/' ∧ c ≠ ':') ∧
    noUU (cleanChars l) = true := by
  constructor
  · intro c hc
    unfold cleanChars collapseUU at hc
    have h6 := mem_collapseUUGo c _ false hc
    obtain ⟨h5, hcolon⟩ := mem_removeAllChar c ':' _ h6
    rcases mem_replaceAllChar c '/' '_' _ h5 with rfl | ⟨h4, hslash⟩
    · exact ⟨by decide, by decide, by decide, by decide⟩
    · have h3 := mem_replaceUUonce c _ h4
      rcases mem_replaceAllChar c ' ' '_' _ h3 with rfl | ⟨h2, hspace⟩
      · exact ⟨by decide, by decide, by decide, by decide⟩
      · obtain ⟨d, hd1, hdc⟩ := List.mem_map.mp h2
        obtain ⟨hd0, hnl⟩ := mem_removeAllChar d '\n' _ hd1
        have hdl := mem_pyStripChars d l hd0
        refine ⟨?_, ?_, hslash, hcolon⟩
        · by_cases hu : isUpperA d = true
          · rw [← hdc]
            exact not_ws_of_lower_range _ (pyLower_toNat_bounds d hu).1
          · have hde : c = d := by
              rw [← hdc, pyLower_eq_self d (by simpa using hu)]
            subst hde
            by_cases hw : isPyWS c = true
            · rcases hws c hdl hw with rfl | rfl
              · exact absurd rfl hspace
              · exact absurd rfl hnl
            · simpa using hw
        · rw [← hdc]
          exact isUpperA_pyLower d
  · unfold cleanChars collapseUU
    exact noUU_collapseUUGo _ false

/-- One cleaning pass is the identity on lists that already satisfy the
post-cleaning invariant. -/
theorem cleanChars_eq_self (m : List Char)
    (hgood : ∀ c ∈ m, isPyWS c = false ∧ isUpperA c = false ∧ c ≠ '/' ∧ c ≠ ':')
    (hUU : noUU m = true) : cleanChars m = m := by
  unfold cleanChars collapseUU
  rw [pyStripChars_eq_self m (fun c hc => (hgood c hc).1)]
  rw [removeAllChar_eq_self '\n' m (fun c hc => by
    intro e
    have hw := (hgood c hc).1
    rw [e] at hw
    simp [isPyWS] at hw)]
  rw [map_pyLower_eq_self m (fun c hc => (hgood c hc).2.1)]
  rw [replaceAllChar_eq_self ' ' '_' m (fun c hc => by
    intro e
    have hw := (hgood c hc).1
    rw [e] at hw
    simp [isPyWS] at hw)]
  rw [replaceUUonce_eq_self m hUU]
  rw [replaceAllChar_eq_self '/' '_' m (fun c hc => (hgood c hc).2.2.1)]
  rw [removeAllChar_eq_self ':' m (fun c hc => (hgood c hc).2.2.2)]
  exact collapseUUGo_eq_self m false hUU (by simp)

/-- C9 amended: the column-name cleaning pipeline is idempotent on every
label whose whitespace characters are only spaces and newlines.  (For other
whitespace — e.g. a tab guarded by a later-removed `:` — a second pass can
strip more, as the counterexample shows.) -/
theorem cleanColumnName_idem (s : String)
    (h : ∀ c ∈ s.data, isPyWS c = true → c = ' ' ∨ c = '\n') :
    cleanColumnName (cleanColumnName s) = cleanColumnName s := by
  unfold cleanColumnName
  have hd : (String.mk (cleanChars s.data)).data = cleanChars s.data := rfl
  rw [hd]
  obtain ⟨hgood, hUU⟩ := cleanChars_good s.data h
  rw [cleanChars_eq_self _ hgood hUU]

/-- Witness for C9 amended at a concrete label. -/
theorem cleanColumnName_idem_witness :
    cleanColumnName (cleanColumnName "Order  Date:/x") = cleanColumnName "Order  Date:/x" :=
  cleanColumnName_idem "Order  Date:/x" (by decide)
